import Mathlib

/-
Verification development for the Broadcom warm-boot cache and garbage
collector (fboss/agent/hw/bcm/BcmWarmBootCache.cpp).

The C++ code is shallowly embedded: the boost flat maps become association
lists over decidable-equality keys, the hardware SDK records become plain
structures carrying exactly the fields the code reads, process-fatal
checks (CHECK / LOG(FATAL)) and thrown FbossError values become an
explicit error type, and the hardware deletion calls issued by
BcmWarmBootCache::clear become an explicit trace of deletion operations.
-/

set_option autoImplicit false

namespace FbossWB

/-- VRF identifier, a hardware routing-domain id. -/
abbrev Vrf := Nat

/-- Hardware egress object identifier; ECMP group ids live in the same
namespace (opennsl_if_t). -/
abbrev EgressId := Nat

/-- Hardware VLAN identifier. -/
abbrev VlanId := Nat

/-- MAC address, abstracted as its 48-bit integer value. -/
abbrev Mac := Nat

/-- An IP address together with its family (folly::IPAddress carries the
family, and equality compares family and bytes). The address value of a
v4 address is below two to the 32, of a v6 address below two to the 128;
the theorems below do not depend on that bound. -/
structure IPAddr where
  isV6 : Bool
  addr : Nat
deriving DecidableEq, Repr

/-- Flag bit OPENNSL_L3_IP6 (modelled as an abstract one-bit mask; the
code only tests the bits, never their numeric values). -/
def OPENNSL_L3_IP6 : Nat := 1

/-- Flag bit OPENNSL_L3_DST_DISCARD. -/
def OPENNSL_L3_DST_DISCARD : Nat := 2

/-- Flag bit OPENNSL_L3_L2TOCPU. -/
def OPENNSL_L3_L2TOCPU : Nat := 4

/-- Flag bit OPENNSL_L3_COPY_TO_CPU. -/
def OPENNSL_L3_COPY_TO_CPU : Nat := 8

/-- getFullMaskIPv4Address in BcmWarmBootCache.cpp: the all-ones IPv4
mask (fetchMask of bitCount), as an address value. -/
def getFullMaskIPv4Address : Nat := 2 ^ 32 - 1

/-- getFullMaskIPv6Address in BcmWarmBootCache.cpp: the all-ones IPv6
mask, as an address value. -/
def getFullMaskIPv6Address : Nat := 2 ^ 128 - 1

/-- kVlanForCPUEgressEntries in BcmWarmBootCache.cpp: to-CPU egress
entries are programmed with vlan 0. -/
def kVlanForCPUEgressEntries : Nat := 0

/-- BcmEgressBase::INVALID, the sentinel egress id meaning "no egress
assigned". Modelled from the spec: the constant lives in BcmEgress.h,
which is not part of the sources here; its concrete value never matters
below, only that valid ids differ from it. -/
def BcmEgressBase_INVALID : Nat := 4294967295

/-- Outcomes of the process-fatal checks and thrown errors in the code:
fatalError models CHECK failures and LOG(FATAL); notFound models the
FbossError thrown by getPathsForEcmp; nullDeref models an unchecked
dereference of a null pointer. -/
inductive Err where
  | fatalError
  | notFound
  | nullDeref
deriving DecidableEq, Repr

/-- True exactly when an Except value is a success. -/
def isOk {ε α : Type} : Except ε α → Bool
  | .ok _ => true
  | .error _ => false

/-- First-match association-list lookup, the model of find on a boost
flat_map (position in the list plays the role of the map order). -/
def assocFind {α β : Type} [DecidableEq α] : List (α × β) → α → Option β
  | [], _ => none
  | (k, v) :: t, q => if q = k then some v else assocFind t q

/-- Insert-or-assign on an association list, the model of operator
bracket assignment on a boost flat_map. -/
def assocUpd {α β : Type} [DecidableEq α] : List (α × β) → α → β → List (α × β)
  | [], k, v => [(k, v)]
  | (k0, v0) :: t, k, v => if k = k0 then (k, v) :: t else (k0, v0) :: assocUpd t k v

/-- Set insertion on a list used as a finite set, the model of insert on
a boost flat_set (membership-preserving; the order of a flat_set is not
observable in any property proved below). -/
def setInsert (s : List Nat) (x : Nat) : List Nat :=
  if x ∈ s then s else s ++ [x]

/-- opennsl_l3_intf_t, restricted to the fields the cache reads. -/
structure BcmIntf where
  l3a_vid : VlanId
  l3a_vrf : Vrf
  l3a_mac_addr : Mac
  l3a_mtu : Nat
deriving DecidableEq, Repr

/-- opennsl_l3_host_t as stored in vrfIp2Host (the vrf and ip live in
the map key; the stored record contributes its destination egress id). -/
structure BcmHost where
  l3a_intf : EgressId
deriving DecidableEq, Repr

/-- opennsl_l3_route_t, restricted to the fields the route traversal
callback reads: family flag, vrf, destination network and mask. -/
structure BcmRoute where
  isV6 : Bool
  l3a_vrf : Vrf
  ip : Nat
  mask : Nat
deriving DecidableEq, Repr

/-- opennsl_l3_egress_t, restricted to the fields the cache reads. -/
structure BcmEgress where
  vlan : VlanId
  intf : Nat
  mac_addr : Mac
  port : Nat
  flags : Nat
deriving DecidableEq, Repr

/-- opennsl_l3_egress_ecmp_t, restricted to its group id. -/
structure BcmEcmp where
  ecmp_intf : Nat
deriving DecidableEq, Repr

/-- opennsl_l2_station_t, whose contents the cache never inspects. -/
structure BcmStation where
  id : Nat
deriving DecidableEq, Repr

/-- VlanInfo as stored in vlan2VlanInfo: the untagged and full port
member lists (port bitmaps, modelled as lists of port numbers). -/
structure VlanInfo where
  untagged : List Nat
  allPorts : List Nat
deriving DecidableEq, Repr

/-- The BcmWarmBootCache object state: the discovered-object maps, the
persisted ECMP path map with its populated flag, the scratch set of
egress ids referenced from the host table, and the two special egress
id registers (BcmEgressBase::INVALID is modelled as none). -/
structure Cache where
  vlan2VlanInfo : List (VlanId × VlanInfo) := []
  vlanAndMac2Intf : List ((VlanId × Mac) × BcmIntf) := []
  vlan2Station : List (VlanId × BcmStation) := []
  vrfIp2Host : List ((Vrf × IPAddr) × BcmHost) := []
  vrfAndIP2Route : List ((Vrf × IPAddr) × BcmRoute) := []
  vrfPrefix2Route : List ((Vrf × IPAddr × IPAddr) × BcmRoute) := []
  egressId2EgressAndBool : List (EgressId × (BcmEgress × Bool)) := []
  egressIds2Ecmp : List (List EgressId × BcmEcmp) := []
  hwSwitchEcmp2EgressIds : List (EgressId × List EgressId) := []
  hwSwitchEcmp2EgressIdsPopulated : Bool := false
  egressOrEcmpIdsFromHostTable : List EgressId := []
  dropEgressId : Option EgressId := none
  toCPUEgressId : Option EgressId := none
deriving DecidableEq, Repr

/-- The cache as built by the BcmWarmBootCache constructor: every map
empty, both special egress ids INVALID, the populated flag false. -/
def emptyCache : Cache := {}

/-- BcmWarmBootCache::getPathsForEcmp. The leading CHECK on the
populated flag is a process-fatal assertion; with the flag set, an empty
persisted map answers the empty set for every id, and otherwise a missing
id raises the not-found FbossError. -/
def getPathsForEcmp (c : Cache) (ecmp : EgressId) : Except Err (List EgressId) :=
  if c.hwSwitchEcmp2EgressIdsPopulated = false then
    .error .fatalError
  else if c.hwSwitchEcmp2EgressIds = [] then
    .ok []
  else
    match assocFind c.hwSwitchEcmp2EgressIds ecmp with
    | some s => .ok s
    | none => .error .notFound

/-- BcmWarmBootCache::toEgressIds. Modelled from the spec: the helper is
declared in BcmWarmBootCache.h (not among the sources); it collects the
hardware-reported interface array into a set of egress ids. -/
def toEgressIds (intfArray : List Nat) : List EgressId :=
  intfArray.foldl setInsert []

/-- The tail of BcmWarmBootCache::ecmpEgressTraversalCallback: the CHECK
that the resolved path set is nonempty, the CHECK against a duplicate
path-set insertion, and the insertion into egressIds2Ecmp. -/
def ecmpInsert (c : Cache) (ecmpIntf : Nat) (egressIds : List EgressId) : Except Err Cache :=
  if egressIds.length = 0 then
    .error .fatalError
  else if (assocFind c.egressIds2Ecmp egressIds).isSome then
    .error .fatalError
  else
    .ok { c with egressIds2Ecmp := assocUpd c.egressIds2Ecmp egressIds ⟨ecmpIntf⟩ }

/-- BcmWarmBootCache::ecmpEgressTraversalCallback. With persisted data
populated the persisted path set is used and the hardware-reported
member array is ignored, except that a not-found lookup is swallowed
exactly when the hardware reports zero members (the double-wide id
artifact); without persisted data a zero-member report is skipped and
the hardware member set is used otherwise. -/
def ecmpEgressTraversalCallback (c : Cache) (ecmpIntf : Nat) (intfArray : List Nat) :
    Except Err Cache :=
  if c.hwSwitchEcmp2EgressIdsPopulated then
    match getPathsForEcmp c ecmpIntf with
    | .ok egressIds => ecmpInsert c ecmpIntf egressIds
    | .error .notFound =>
        if intfArray.length = 0 then .ok c else .error .notFound
    | .error e => .error e
  else
    if intfArray.length = 0 then
      .ok c
    else
      ecmpInsert c ecmpIntf (toEgressIds intfArray)

/-- BcmWarmBootCache::routeTraversalCallback: classify the route by its
mask and the platform host-table capability and store it in the host
route map or the prefix route map. -/
def routeTraversalCallback (canUseHostTableForHostRoutes : Bool) (c : Cache)
    (route : BcmRoute) : Cache :=
  let ip : IPAddr := ⟨route.isV6, route.ip⟩
  let mask : IPAddr := ⟨route.isV6, route.mask⟩
  if canUseHostTableForHostRoutes = true ∧
      ((route.isV6 = true ∧ mask = ⟨true, getFullMaskIPv6Address⟩) ∨
       (route.isV6 = false ∧ mask = ⟨false, getFullMaskIPv4Address⟩)) then
    { c with vrfAndIP2Route := assocUpd c.vrfAndIP2Route (route.l3a_vrf, ip) route }
  else
    { c with vrfPrefix2Route := assocUpd c.vrfPrefix2Route (route.l3a_vrf, ip, mask) route }

/-- BcmWarmBootCache::egressTraversalCallback: a duplicate callback for
an id is fatal; an id referenced from the host table is stored unclaimed;
an unreferenced egress must be the unique drop egress or the unique
to-CPU egress, and anything else is fatal. -/
def egressTraversalCallback (c : Cache) (egressId : EgressId) (egress : BcmEgress) :
    Except Err Cache :=
  if (assocFind c.egressId2EgressAndBool egressId).isSome then
    .error .fatalError
  else if egressId ∈ c.egressOrEcmpIdsFromHostTable then
    .ok { c with
          egressId2EgressAndBool := assocUpd c.egressId2EgressAndBool egressId (egress, false) }
  else if egress.flags &&& OPENNSL_L3_DST_DISCARD ≠ 0 then
    match c.dropEgressId with
    | some _ => .error .fatalError
    | none => .ok { c with dropEgressId := some egressId }
  else if egress.flags &&& (OPENNSL_L3_L2TOCPU ||| OPENNSL_L3_COPY_TO_CPU) ≠ 0 then
    match c.toCPUEgressId with
    | some _ => .error .fatalError
    | none => .ok { c with toCPUEgressId := some egressId }
  else
    .error .fatalError

/-- Run the egress traversal callback over a whole discovery sequence,
as opennsl_l3_egress_traverse does during populate, stopping at the
first fatal check. -/
def processEgressEntries : Cache → List (EgressId × BcmEgress) → Except Err Cache
  | c, [] => .ok c
  | c, (id, e) :: t =>
    match egressTraversalCallback c id e with
    | .ok c1 => processEgressEntries c1 t
    | .error err => .error err

/-- The cache state at the start of the egress traversal in populate:
fresh from the constructor except that the host traversal has filled the
scratch set of host-referenced egress ids. -/
def egressDiscoveryStart (refs : List EgressId) : Cache :=
  { emptyCache with egressOrEcmpIdsFromHostTable := refs }

/-- The role the egress traversal callback assigns to an egress record,
following the branch order of the code: the drop flag wins, then the
to-CPU flags, and otherwise the record is unflagged. -/
inductive EgressRole where
  | drop
  | toCPU
  | unflagged
deriving DecidableEq, Repr

/-- Classify an egress record by the flag tests of the callback. -/
def egressRole (e : BcmEgress) : EgressRole :=
  if e.flags &&& OPENNSL_L3_DST_DISCARD ≠ 0 then .drop
  else if e.flags &&& (OPENNSL_L3_L2TOCPU ||| OPENNSL_L3_COPY_TO_CPU) ≠ 0 then .toCPU
  else .unflagged

/-- Count the entries of a discovery sequence that are not referenced
from the host table and carry the given role. -/
def unclaimedRoleCount (refs : List EgressId) (es : List (EgressId × BcmEgress))
    (r : EgressRole) : Nat :=
  es.countP (fun p => decide (p.1 ∉ refs) && decide (egressRole p.2 = r))

/-- The discovery invariant on an egress traversal sequence: every
unreferenced egress carries a role flag, and each of the two singleton
roles is claimed at most once. -/
def egressDiscoveryOk (refs : List EgressId) (es : List (EgressId × BcmEgress)) : Prop :=
  (∀ p ∈ es, p.1 ∉ refs → egressRole p.2 ≠ .unflagged) ∧
  unclaimedRoleCount refs es .drop ≤ 1 ∧
  unclaimedRoleCount refs es .toCPU ≤ 1

/-- One serialized ECMP record of the warm-boot JSON: an ecmpEgressId
field and a paths array. -/
structure EcmpSerEntry where
  egressId : Nat
  paths : List Nat
deriving DecidableEq, Repr

/-- The ecmpObjects array produced by BcmWarmBootCache::toFollyDynamic
(only the hwSwitchEcmp2EgressIds table is serialized). -/
def toFollyDynamicEcmp (c : Cache) : List EcmpSerEntry :=
  c.hwSwitchEcmp2EgressIds.map (fun p => ⟨p.1, p.2⟩)

/-- The path set stored for a group id, empty when the id is absent (the
default-constructed flat_set produced by operator bracket). -/
def pathsOf (m : List (EgressId × List EgressId)) (k : EgressId) : List EgressId :=
  (assocFind m k).getD []

/-- Fold the paths of one serialized record into the ECMP path map, as
the per-path insert loops of populateStateFromWarmbootFile do (operator
bracket default-constructs an empty set, then insert adds the path). -/
def insertPaths : List (EgressId × List EgressId) → Nat → List Nat →
    List (EgressId × List EgressId)
  | m, _, [] => m
  | m, id, p :: ps => insertPaths (assocUpd m id (setInsert (pathsOf m id) p)) id ps

/-- Load the dumped warm-boot-cache ecmpObjects array: for each record
the code CHECKs that the id is not INVALID and inserts every path. -/
def loadEcmpObjEntries : List EcmpSerEntry → List (EgressId × List EgressId) →
    Except Err (List (EgressId × List EgressId))
  | [], m => .ok m
  | e :: t, m =>
    if e.egressId = BcmEgressBase_INVALID then .error .fatalError
    else loadEcmpObjEntries t (insertPaths m e.egressId e.paths)

/-- The ECMP part of BcmWarmBootCache::populateStateFromWarmbootFile
(file reading and JSON parsing are modelled away: the function receives
the decoded hwSwitch presence flag, the hostTable ecmpHosts array and
the warmBootCache ecmpObjects array). Without a hwSwitch section nothing
is reconstructed; otherwise the populated flag is set, hostTable entries
with an INVALID id are skipped, and every ecmpObjects entry is loaded
with a CHECK against an INVALID id. -/
def populateEcmpFromFile (hasHwSwitch : Bool) (ecmpHosts : List EcmpSerEntry)
    (ecmpObjects : List EcmpSerEntry) (c : Cache) : Except Err Cache :=
  if hasHwSwitch = false then
    .ok c
  else
    let m1 := ecmpHosts.foldl
      (fun m e => if e.egressId = BcmEgressBase_INVALID then m else insertPaths m e.egressId e.paths)
      c.hwSwitchEcmp2EgressIds
    match loadEcmpObjEntries ecmpObjects m1 with
    | .error e => .error e
    | .ok m2 =>
        .ok { c with
              hwSwitchEcmp2EgressIdsPopulated := true,
              hwSwitchEcmp2EgressIds := m2 }

/-- BcmWarmBootCache::findEgress. Modelled from the spec: the helper is
declared in BcmWarmBootCache.h (not among the sources); it resolves a
vrf and ip through the host-entry map to the underlying egress object
and its claimed flag, without removing the host entry. -/
def findEgress (c : Cache) (vrf : Vrf) (ip : IPAddr) : Option (BcmEgress × Bool) :=
  (assocFind c.vrfIp2Host (vrf, ip)).bind
    (fun h => assocFind c.egressId2EgressAndBool h.l3a_intf)

/-- BcmEgress::programmedToDrop. Modelled from the spec: the predicate
lives in BcmEgress.h (not among the sources); an egress is programmed to
drop when its destination-discard flag is set. -/
def programmedToDrop (e : BcmEgress) : Bool :=
  e.flags &&& OPENNSL_L3_DST_DISCARD ≠ 0

/-- One reconstructed neighbor entry: the address value and whether it
was added as a pending (drop-programmed) entry. -/
structure NeighborEntry where
  ip : Nat
  pending : Bool
deriving DecidableEq, Repr

/-- The AddrTables pair of reconstructVlanMap: a reconstructed ARP table
and a reconstructed NDP table for one VLAN. -/
structure AddrTables where
  arp : List NeighborEntry := []
  ndp : List NeighborEntry := []
deriving DecidableEq, Repr

/-- The persisted snapshot view of one VLAN: the address sets of its
dumped ARP and NDP neighbor tables. -/
structure DumpedVlan where
  arpIps : List Nat := []
  ndpIps : List Nat := []
deriving DecidableEq, Repr

/-- One interface of the persisted software-state snapshot: the fields
reconstructInterfaceMap recovers from it. -/
structure DumpedInterface where
  name : String
  addresses : List IPAddr
deriving DecidableEq, Repr

/-- A reconstructed software interface, as assembled by
reconstructInterfaceMap: id, router, vlan and mtu from hardware, name
and addresses from the snapshot, mac from the discovery map key. -/
structure Interface where
  intfId : Nat
  routerId : Vrf
  vlan : VlanId
  name : String
  mac : Mac
  mtu : Nat
  addresses : List IPAddr
deriving DecidableEq, Repr

/-- BcmWarmBootCache::reconstructInterfaceMap: for every discovered
(vlan, mac) interface, the snapshot interface with the hardware vlan id
is looked up with getInterfaceIf and dereferenced with no null check; a
missing snapshot interface is therefore a null dereference, modelled as
the nullDeref error. -/
def reconstructInterfaceMap (intfs : List ((VlanId × Mac) × BcmIntf))
    (dumpedInterfaces : List (Nat × DumpedInterface)) : Except Err (List Interface) :=
  match intfs with
  | [] => .ok []
  | ((_, mac), bcmIntf) :: t =>
    match assocFind dumpedInterfaces bcmIntf.l3a_vid with
    | none => .error .nullDeref
    | some d =>
      (reconstructInterfaceMap t dumpedInterfaces).map
        (fun rest =>
          { intfId := bcmIntf.l3a_vid,
            routerId := bcmIntf.l3a_vrf,
            vlan := bcmIntf.l3a_vid,
            name := d.name,
            mac := mac,
            mtu := bcmIntf.l3a_mtu,
            addresses := d.addresses } :: rest)

/-- One step of the neighbor-table loop of reconstructVlanMap, for one
discovered host entry: hosts whose egress cannot be resolved (ECMP
hosts) are skipped, to-CPU entries on vlan 0 are skipped, a host whose
address is absent from the dumped neighbor table of its VLAN is skipped,
and an accepted host is appended to the ARP or NDP table of its VLAN as
pending exactly when its egress is programmed to drop. Looking up a
VLAN that the dumped state lacks throws (getVlan), modelled as fatal. -/
def reconNeighborStep (c : Cache) (dumpedVlans : List (VlanId × DumpedVlan))
    (acc : List (VlanId × AddrTables)) (entry : (Vrf × IPAddr) × BcmHost) :
    Except Err (List (VlanId × AddrTables)) :=
  match findEgress c entry.1.1 entry.1.2 with
  | none => .ok acc
  | some (bcmEgress, _) =>
    if bcmEgress.vlan = kVlanForCPUEgressEntries then
      .ok acc
    else
      match assocFind dumpedVlans bcmEgress.vlan with
      | none => .error .fatalError
      | some dumpedVlan =>
        if entry.1.2.isV6 = false ∧ entry.1.2.addr ∉ dumpedVlan.arpIps then
          .ok acc
        else if entry.1.2.isV6 = true ∧ entry.1.2.addr ∉ dumpedVlan.ndpIps then
          .ok acc
        else
          .ok (assocUpd acc bcmEgress.vlan
            (if entry.1.2.isV6 then
              { ((assocFind acc bcmEgress.vlan).getD {} : AddrTables) with
                ndp := ((assocFind acc bcmEgress.vlan).getD {} : AddrTables).ndp ++
                  [⟨entry.1.2.addr, programmedToDrop bcmEgress⟩] }
            else
              { ((assocFind acc bcmEgress.vlan).getD {} : AddrTables) with
                arp := ((assocFind acc bcmEgress.vlan).getD {} : AddrTables).arp ++
                  [⟨entry.1.2.addr, programmedToDrop bcmEgress⟩] }))

/-- The loop of the neighbor-table portion of reconstructVlanMap over
the discovered host entries, carrying the per-VLAN tables built so
far. -/
def reconNeighborLoop (c : Cache) (dumpedVlans : List (VlanId × DumpedVlan)) :
    List ((Vrf × IPAddr) × BcmHost) → List (VlanId × AddrTables) →
    Except Err (List (VlanId × AddrTables))
  | [], acc => .ok acc
  | entry :: t, acc =>
    match reconNeighborStep c dumpedVlans acc entry with
    | .ok acc1 => reconNeighborLoop c dumpedVlans t acc1
    | .error e => .error e

/-- The neighbor-table portion of BcmWarmBootCache::reconstructVlanMap
(the per-VLAN vlan2AddrTables map built from the discovered host entries
and the dumped snapshot; the port-membership part of the function does
not bear on any claim and is not modelled). -/
def reconstructNeighborTables (c : Cache) (dumpedVlans : List (VlanId × DumpedVlan)) :
    Except Err (List (VlanId × AddrTables)) :=
  reconNeighborLoop c dumpedVlans c.vrfIp2Host []

/-- The invariant tying reconstructed neighbor tables to the dumped
snapshot: every reconstructed ARP or NDP entry of a VLAN appears in the
dumped neighbor table of that VLAN. -/
def neighborsFromDump (dumpedVlans : List (VlanId × DumpedVlan))
    (tbls : List (VlanId × AddrTables)) : Prop :=
  ∀ v t, (v, t) ∈ tbls →
    (∀ e ∈ t.arp, ∃ d, assocFind dumpedVlans v = some d ∧ e.ip ∈ d.arpIps) ∧
    (∀ e ∈ t.ndp, ∃ d, assocFind dumpedVlans v = some d ∧ e.ip ∈ d.ndpIps)

/-- One hardware deletion issued by BcmWarmBootCache::clear, tagged by
the table it acts on. -/
inductive DelOp where
  | delRoute (vrf : Vrf) (ip : IPAddr) (mask : IPAddr)
  | delHostRoute (vrf : Vrf) (ip : IPAddr)
  | delHost (vrf : Vrf) (ip : IPAddr)
  | delEcmp (egressIds : List EgressId)
  | delEgress (id : EgressId)
  | delIntf (vlan : VlanId) (mac : Mac)
  | delStation (vlan : VlanId)
  | delVlan (vlan : VlanId)
deriving DecidableEq, Repr

/-- The teardown stage a deletion belongs to, numbered by the order the
sweeps appear in clear. -/
def DelOp.stage : DelOp → Nat
  | .delRoute _ _ _ => 0
  | .delHostRoute _ _ => 1
  | .delHost _ _ => 2
  | .delEcmp _ => 3
  | .delEgress _ => 4
  | .delIntf _ _ => 5
  | .delStation _ => 6
  | .delVlan _ => 7

/-- The ordered trace of hardware deletions issued by
BcmWarmBootCache::clear: every remaining prefix route, then every
remaining host route, then every remaining host entry, then every
remaining ECMP group, then every egress object whose claimed flag is
still false, then every remaining interface, then every remaining
station, then every remaining VLAN other than the default VLAN. -/
def clearTrace (c : Cache) (defaultVlan : VlanId) : List DelOp :=
  c.vrfPrefix2Route.map (fun p => DelOp.delRoute p.1.1 p.1.2.1 p.1.2.2) ++
  c.vrfAndIP2Route.map (fun p => DelOp.delHostRoute p.1.1 p.1.2) ++
  c.vrfIp2Host.map (fun p => DelOp.delHost p.1.1 p.1.2) ++
  c.egressIds2Ecmp.map (fun p => DelOp.delEcmp p.1) ++
  c.egressId2EgressAndBool.filterMap
    (fun p => if p.2.2 then none else some (DelOp.delEgress p.1)) ++
  c.vlanAndMac2Intf.map (fun p => DelOp.delIntf p.1.1 p.1.2) ++
  c.vlan2Station.map (fun p => DelOp.delStation p.1) ++
  c.vlan2VlanInfo.filterMap
    (fun p => if p.1 = defaultVlan then none else some (DelOp.delVlan p.1))

/-- A concrete post-reconciliation cache in which the hardware default
VLAN (vlan 1) was discovered and left unclaimed. -/
def cexC1Cache : Cache :=
  { emptyCache with vlan2VlanInfo := [(1, ⟨[], []⟩)] }

/-- A concrete post-reconciliation cache holding one unclaimed object in
each table that the teardown consequence theorems are witnessed on. -/
def exC2Cache : Cache :=
  { emptyCache with
    vrfPrefix2Route := [((0, ⟨false, 10⟩, ⟨false, 4294967040⟩), ⟨false, 0, 10, 4294967040⟩)],
    vrfIp2Host := [((0, ⟨false, 10⟩), ⟨10⟩)],
    egressIds2Ecmp := [([10], ⟨5⟩)],
    egressId2EgressAndBool := [(10, (⟨3, 1, 2, 4, 0⟩, false))],
    vlanAndMac2Intf := [((3, 7), ⟨3, 0, 7, 1500⟩)] }

/-- A concrete cache with persisted ECMP data for group 5 recording the
paths 10 and 11, as in the path-preference example of the spec. -/
def exC3Cache : Cache :=
  { emptyCache with
    hwSwitchEcmp2EgressIdsPopulated := true,
    hwSwitchEcmp2EgressIds := [(5, [10, 11])] }

/-- The cache produced by the ECMP traversal callback on exC3Cache. -/
def exC3CacheOut : Cache :=
  { exC3Cache with egressIds2Ecmp := [([10, 11], ⟨5⟩)] }

/-- A concrete populated cache whose persisted map knows only group 7. -/
def exC5Cache : Cache :=
  { emptyCache with
    hwSwitchEcmp2EgressIdsPopulated := true,
    hwSwitchEcmp2EgressIds := [(7, [20])] }

/-- A concrete IPv4 route carrying the full 32-bit mask. -/
def exRouteV4 : BcmRoute :=
  ⟨false, 0, 167772161, getFullMaskIPv4Address⟩

/-- A concrete egress record carrying the drop flag. -/
def exDropEgress : BcmEgress :=
  ⟨1, 0, 0, 0, OPENNSL_L3_DST_DISCARD⟩

/-- A concrete egress record carrying a to-CPU flag. -/
def exCpuEgress : BcmEgress :=
  ⟨0, 0, 0, 0, OPENNSL_L3_COPY_TO_CPU⟩

/-- A concrete egress record carrying neither special-role flag. -/
def exPlainEgress : BcmEgress :=
  ⟨1, 2, 3, 4, 0⟩

/-- A concrete cache with one discovered host entry resolving through
egress 100 to vlan 2. -/
def exC8Cache : Cache :=
  { emptyCache with
    vrfIp2Host := [((0, ⟨false, 5⟩), ⟨100⟩)],
    egressId2EgressAndBool := [(100, (⟨2, 0, 42, 3, 0⟩, false))] }

/-- A concrete dumped snapshot whose vlan 2 ARP table lists address 5. -/
def exC8DumpedVlans : List (VlanId × DumpedVlan) :=
  [(2, { arpIps := [5], ndpIps := [] })]

/-- A concrete cache holding a two-group ECMP path map to round-trip. -/
def exC9Cache : Cache :=
  { emptyCache with hwSwitchEcmp2EgressIds := [(5, [10, 11]), (6, [12])] }

/-- A concrete discovered interface list for vlan 3. -/
def exC10Intfs : List ((VlanId × Mac) × BcmIntf) :=
  [((3, 7), ⟨3, 0, 7, 1500⟩)]

/-- A concrete dumped interface map containing interface id 3. -/
def exC10Dumped : List (Nat × DumpedInterface) :=
  [(3, ⟨"intf3", [⟨false, 99⟩]⟩)]

/-! Helper lemmas about the association-list and set primitives. -/

theorem assocFind_assocUpd {α β : Type} [DecidableEq α] (m : List (α × β)) (k q : α) (v : β) :
    assocFind (assocUpd m k v) q = if q = k then some v else assocFind m q := by
  induction m with
  | nil => simp [assocUpd, assocFind]
  | cons hd t ih =>
    obtain ⟨k0, v0⟩ := hd
    by_cases hk : k = k0
    · subst hk
      by_cases hq : q = k <;> simp [assocUpd, assocFind, hq]
    · by_cases hq : q = k0
      · subst hq
        simp [assocUpd, assocFind, hk, Ne.symm hk]
      · simp [assocUpd, assocFind, hk, hq, ih]

theorem mem_assocUpd {α β : Type} [DecidableEq α] (m : List (α × β)) (k : α) (v : β)
    (p : α × β) : p ∈ assocUpd m k v → p = (k, v) ∨ p ∈ m := by
  induction m with
  | nil =>
    intro h
    simp only [assocUpd, List.mem_singleton] at h
    exact Or.inl h
  | cons hd t ih =>
    obtain ⟨k0, v0⟩ := hd
    intro h
    simp only [assocUpd] at h
    split at h
    next =>
      rcases List.mem_cons.mp h with h1 | h1
      · exact Or.inl h1
      · exact Or.inr (List.mem_cons_of_mem _ h1)
    next =>
      rcases List.mem_cons.mp h with h1 | h1
      · exact Or.inr (h1 ▸ List.mem_cons_self _ _)
      · rcases ih h1 with h2 | h2
        · exact Or.inl h2
        · exact Or.inr (List.mem_cons_of_mem _ h2)

theorem mem_of_assocFind_eq_some {α β : Type} [DecidableEq α] (m : List (α × β)) (k : α)
    (v : β) : assocFind m k = some v → (k, v) ∈ m := by
  induction m with
  | nil =>
    intro h
    simp [assocFind] at h
  | cons hd t ih =>
    obtain ⟨k0, v0⟩ := hd
    intro h
    simp only [assocFind] at h
    split at h
    next heq =>
      have hv : v0 = v := Option.some.inj h
      subst hv
      subst heq
      exact List.mem_cons_self _ _
    next =>
      exact List.mem_cons_of_mem _ (ih h)

theorem assocFind_eq_some_of_mem {α β : Type} [DecidableEq α] (m : List (α × β)) (k : α)
    (v : β) : (m.map Prod.fst).Nodup → (k, v) ∈ m → assocFind m k = some v := by
  induction m with
  | nil =>
    intro _ h
    simp at h
  | cons hd t ih =>
    obtain ⟨k0, v0⟩ := hd
    intro hnd h
    simp only [List.map_cons, List.nodup_cons] at hnd
    rcases List.mem_cons.mp h with h1 | h1
    · rw [Prod.mk.injEq] at h1
      obtain ⟨h2, h3⟩ := h1
      subst h2
      subst h3
      simp [assocFind]
    · have hk : k ≠ k0 := by
        intro he
        exact hnd.1 (List.mem_map.mpr ⟨(k, v), h1, by simp [he]⟩)
      simp only [assocFind, if_neg hk]
      exact ih hnd.2 h1

theorem mem_setInsert (s : List Nat) (x y : Nat) :
    x ∈ setInsert s y ↔ x = y ∨ x ∈ s := by
  unfold setInsert
  by_cases h : y ∈ s
  · simp only [if_pos h]
    constructor
    · exact Or.inr
    · rintro (rfl | hx)
      · exact h
      · exact hx
  · simp [if_neg h, List.mem_append, or_comm]

/-- The route traversal callback classifies by one condition: the
platform capability together with the mask being the all-ones mask of
the route family. -/
theorem routeTraversalCallback_eq (canUse : Bool) (c : Cache) (r : BcmRoute) :
    routeTraversalCallback canUse c r =
      if canUse = true ∧
          r.mask = (if r.isV6 then getFullMaskIPv6Address else getFullMaskIPv4Address) then
        { c with vrfAndIP2Route := assocUpd c.vrfAndIP2Route (r.l3a_vrf, ⟨r.isV6, r.ip⟩) r }
      else
        { c with vrfPrefix2Route :=
            assocUpd c.vrfPrefix2Route (r.l3a_vrf, ⟨r.isV6, r.ip⟩, ⟨r.isV6, r.mask⟩) r } := by
  obtain ⟨v6, vrf0, ip0, mask0⟩ := r
  cases v6
  case false =>
    by_cases hcu : canUse = true
    · by_cases hm : mask0 = getFullMaskIPv4Address
      · simp [routeTraversalCallback, hcu, hm]
      · simp [routeTraversalCallback, hcu, hm, IPAddr.mk.injEq]
    · simp [routeTraversalCallback, hcu]
  case true =>
    by_cases hcu : canUse = true
    · by_cases hm : mask0 = getFullMaskIPv6Address
      · simp [routeTraversalCallback, hcu, hm]
      · simp [routeTraversalCallback, hcu, hm, IPAddr.mk.injEq]
    · simp [routeTraversalCallback, hcu]

/-- C6: a route seen by the route traversal callback is stored as a host
route in the (vrf, ip) map exactly when its mask is the full
address-width mask of its family and the platform allows host-route
promotion; in every other case, a full mask with promotion disabled
included, it is stored as a prefix route in the (vrf, prefix, mask)
map. -/
theorem route_classification (canUse : Bool) (c : Cache) (r : BcmRoute)
    (h1 : assocFind c.vrfAndIP2Route (r.l3a_vrf, ⟨r.isV6, r.ip⟩) = none)
    (h2 : assocFind c.vrfPrefix2Route (r.l3a_vrf, ⟨r.isV6, r.ip⟩, ⟨r.isV6, r.mask⟩) = none) :
    ((assocFind (routeTraversalCallback canUse c r).vrfAndIP2Route
        (r.l3a_vrf, ⟨r.isV6, r.ip⟩)).isSome = true ↔
      (canUse = true ∧
        r.mask = (if r.isV6 then getFullMaskIPv6Address else getFullMaskIPv4Address))) ∧
    ((assocFind (routeTraversalCallback canUse c r).vrfPrefix2Route
        (r.l3a_vrf, ⟨r.isV6, r.ip⟩, ⟨r.isV6, r.mask⟩)).isSome = true ↔
      ¬(canUse = true ∧
        r.mask = (if r.isV6 then getFullMaskIPv6Address else getFullMaskIPv4Address))) := by
  rw [routeTraversalCallback_eq]
  by_cases hc : (canUse = true ∧
      r.mask = (if r.isV6 then getFullMaskIPv6Address else getFullMaskIPv4Address))
  · rw [if_pos hc]
    refine ⟨by simp [assocFind_assocUpd, hc], ?_⟩
    have h2s : assocFind
        ({ c with vrfAndIP2Route :=
            assocUpd c.vrfAndIP2Route (r.l3a_vrf, ⟨r.isV6, r.ip⟩) r }).vrfPrefix2Route
        (r.l3a_vrf, ⟨r.isV6, r.ip⟩, ⟨r.isV6, r.mask⟩) = none := h2
    rw [h2s]
    simp [hc]
  · rw [if_neg hc]
    refine ⟨?_, by simp [assocFind_assocUpd, hc]⟩
    have h1s : assocFind
        ({ c with vrfPrefix2Route :=
            assocUpd c.vrfPrefix2Route (r.l3a_vrf, ⟨r.isV6, r.ip⟩, ⟨r.isV6, r.mask⟩) r
          }).vrfAndIP2Route
        (r.l3a_vrf, ⟨r.isV6, r.ip⟩) = none := h1
    rw [h1s]
    simp [hc]

/-- Witness for route_classification: a concrete IPv4 route with the
full 32-bit mask is stored as a host route when promotion is enabled and
as a prefix route when promotion is disabled. -/
theorem route_classification_witness :
    (assocFind emptyCache.vrfAndIP2Route (0, ⟨false, 167772161⟩) = none) ∧
    ((assocFind (routeTraversalCallback true emptyCache exRouteV4).vrfAndIP2Route
        (0, ⟨false, 167772161⟩)).isSome = true) ∧
    ((assocFind (routeTraversalCallback false emptyCache exRouteV4).vrfPrefix2Route
        (0, ⟨false, 167772161⟩, ⟨false, getFullMaskIPv4Address⟩)).isSome = true) :=
  ⟨rfl,
   (route_classification true emptyCache exRouteV4 rfl rfl).1.mpr ⟨rfl, rfl⟩,
   (route_classification false emptyCache exRouteV4 rfl rfl).2.mpr (by simp)⟩

/-- C4: with the populated flag set, getPathsForEcmp answers the stored
member set of a known group id, fails with the not-found error for an
unknown id, and answers the empty set for every id when no ECMP data was
ever recorded (empty persisted map). -/
theorem getPathsForEcmp_spec (c : Cache)
    (h : c.hwSwitchEcmp2EgressIdsPopulated = true) :
    (c.hwSwitchEcmp2EgressIds = [] → ∀ e, getPathsForEcmp c e = .ok []) ∧
    (∀ e s, assocFind c.hwSwitchEcmp2EgressIds e = some s → getPathsForEcmp c e = .ok s) ∧
    (∀ e, c.hwSwitchEcmp2EgressIds ≠ [] → assocFind c.hwSwitchEcmp2EgressIds e = none →
      getPathsForEcmp c e = .error .notFound) := by
  refine ⟨?_, ?_, ?_⟩
  · intro he e
    simp [getPathsForEcmp, h, he]
  · intro e s hs
    have hne : c.hwSwitchEcmp2EgressIds ≠ [] := by
      intro he
      rw [he] at hs
      simp [assocFind] at hs
    simp [getPathsForEcmp, h, hne, hs]
  · intro e hne hnone
    simp [getPathsForEcmp, h, hne, hnone]

/-- Witness for getPathsForEcmp_spec: on a concrete populated cache the
known id 5 answers its stored paths, the unknown id 6 fails not-found,
and on a populated cache with an empty map id 6 answers the empty set. -/
theorem getPathsForEcmp_spec_witness :
    exC3Cache.hwSwitchEcmp2EgressIdsPopulated = true ∧
    getPathsForEcmp exC3Cache 5 = .ok [10, 11] ∧
    getPathsForEcmp exC3Cache 6 = .error .notFound ∧
    getPathsForEcmp { emptyCache with hwSwitchEcmp2EgressIdsPopulated := true } 6 = .ok [] :=
  ⟨rfl,
   (getPathsForEcmp_spec exC3Cache rfl).2.1 5 [10, 11] rfl,
   (getPathsForEcmp_spec exC3Cache rfl).2.2 6 (by simp [exC3Cache]) rfl,
   (getPathsForEcmp_spec { emptyCache with hwSwitchEcmp2EgressIdsPopulated := true } rfl).1
     rfl 6⟩

/-- C3: with persisted ECMP data populated and a persisted path set for
the group id, the traversal callback records exactly the persisted set
and its outcome does not depend on the hardware-reported member array. -/
theorem ecmp_persisted_paths_preferred (c : Cache) (e : Nat) (P : List EgressId)
    (hpop : c.hwSwitchEcmp2EgressIdsPopulated = true)
    (hfind : assocFind c.hwSwitchEcmp2EgressIds e = some P) :
    (∀ l1 l2, ecmpEgressTraversalCallback c e l1 = ecmpEgressTraversalCallback c e l2) ∧
    (∀ l c2, ecmpEgressTraversalCallback c e l = .ok c2 →
      assocFind c2.egressIds2Ecmp P = some ⟨e⟩) := by
  have hne : c.hwSwitchEcmp2EgressIds ≠ [] := by
    intro he
    rw [he] at hfind
    simp [assocFind] at hfind
  have hget : getPathsForEcmp c e = .ok P := by
    simp [getPathsForEcmp, hpop, hne, hfind]
  have hcb : ∀ l, ecmpEgressTraversalCallback c e l = ecmpInsert c e P := by
    intro l
    simp [ecmpEgressTraversalCallback, hpop, hget]
  refine ⟨fun l1 l2 => by rw [hcb l1, hcb l2], ?_⟩
  intro l c2 hok
  rw [hcb l] at hok
  unfold ecmpInsert at hok
  split at hok
  next => exact absurd hok (by simp)
  next =>
    split at hok
    next => exact absurd hok (by simp)
    next =>
      have hc2 := Except.ok.inj hok
      rw [← hc2]
      simp [assocFind_assocUpd]

/-- Witness for ecmp_persisted_paths_preferred: persisted data maps
group 5 to paths 10 and 11 while hardware reports only path 10; the
callback outcome matches the one for a full hardware report, and the
recorded member set for group 5 is the persisted pair. -/
theorem ecmp_persisted_paths_preferred_witness :
    exC3Cache.hwSwitchEcmp2EgressIdsPopulated = true ∧
    assocFind exC3Cache.hwSwitchEcmp2EgressIds 5 = some [10, 11] ∧
    ecmpEgressTraversalCallback exC3Cache 5 [10] =
      ecmpEgressTraversalCallback exC3Cache 5 [10, 11] ∧
    ecmpEgressTraversalCallback exC3Cache 5 [10] = .ok exC3CacheOut ∧
    assocFind exC3CacheOut.egressIds2Ecmp [10, 11] = some ⟨5⟩ :=
  ⟨rfl, rfl,
   (ecmp_persisted_paths_preferred exC3Cache 5 [10, 11] rfl rfl).1 [10] [10, 11],
   rfl,
   (ecmp_persisted_paths_preferred exC3Cache 5 [10, 11] rfl rfl).2 [10] exC3CacheOut rfl⟩

/-- C5: when the persisted lookup for the group id raises not-found, the
ECMP traversal callback leaves the cache unchanged and reports success
exactly when the hardware reports zero members, and propagates the
not-found error whenever the hardware reports a nonzero member count. -/
theorem ecmp_notFound_skip_iff_zero_members (c : Cache) (e : Nat)
    (hpop : c.hwSwitchEcmp2EgressIdsPopulated = true)
    (hget : getPathsForEcmp c e = .error .notFound) :
    (∀ l, ecmpEgressTraversalCallback c e l = .ok c ↔ l.length = 0) ∧
    (∀ l, l.length ≠ 0 → ecmpEgressTraversalCallback c e l = .error .notFound) := by
  have hcb : ∀ l, ecmpEgressTraversalCallback c e l =
      if l.length = 0 then .ok c else .error .notFound := by
    intro l
    simp [ecmpEgressTraversalCallback, hpop, hget]
  refine ⟨?_, ?_⟩
  · intro l
    rw [hcb]
    by_cases hl : l.length = 0 <;> simp [hl]
  · intro l hl
    rw [hcb]
    simp [hl]

/-- Witness for ecmp_notFound_skip_iff_zero_members: on a concrete
populated cache that knows only group 7, a callback for group 5 with an
empty hardware report is skipped and one with a nonzero report
propagates the not-found error. -/
theorem ecmp_notFound_skip_iff_zero_members_witness :
    exC5Cache.hwSwitchEcmp2EgressIdsPopulated = true ∧
    getPathsForEcmp exC5Cache 5 = .error .notFound ∧
    ecmpEgressTraversalCallback exC5Cache 5 [] = .ok exC5Cache ∧
    ecmpEgressTraversalCallback exC5Cache 5 [33] = .error .notFound :=
  ⟨rfl, rfl,
   ((ecmp_notFound_skip_iff_zero_members exC5Cache 5 rfl rfl).1 []).mpr rfl,
   (ecmp_notFound_skip_iff_zero_members exC5Cache 5 rfl rfl).2 [33] (by simp)⟩

theorem delRoute_mem_clearTrace (c : Cache) (dv : VlanId) (vrf : Vrf) (ip mask : IPAddr) :
    DelOp.delRoute vrf ip mask ∈ clearTrace c dv ↔
      ∃ r, ((vrf, ip, mask), r) ∈ c.vrfPrefix2Route := by
  simp [clearTrace]
  aesop

theorem delHostRoute_mem_clearTrace (c : Cache) (dv : VlanId) (vrf : Vrf) (ip : IPAddr) :
    DelOp.delHostRoute vrf ip ∈ clearTrace c dv ↔
      ∃ r, ((vrf, ip), r) ∈ c.vrfAndIP2Route := by
  simp [clearTrace]

theorem delHost_mem_clearTrace (c : Cache) (dv : VlanId) (vrf : Vrf) (ip : IPAddr) :
    DelOp.delHost vrf ip ∈ clearTrace c dv ↔
      ∃ h, ((vrf, ip), h) ∈ c.vrfIp2Host := by
  simp [clearTrace]

theorem delEcmp_mem_clearTrace (c : Cache) (dv : VlanId) (ids : List EgressId) :
    DelOp.delEcmp ids ∈ clearTrace c dv ↔
      ∃ e, (ids, e) ∈ c.egressIds2Ecmp := by
  simp [clearTrace]

theorem delEgress_mem_clearTrace (c : Cache) (dv : VlanId) (id : EgressId) :
    DelOp.delEgress id ∈ clearTrace c dv ↔
      ∃ e, (id, (e, false)) ∈ c.egressId2EgressAndBool := by
  simp [clearTrace]

theorem delIntf_mem_clearTrace (c : Cache) (dv : VlanId) (vlan : VlanId) (mac : Mac) :
    DelOp.delIntf vlan mac ∈ clearTrace c dv ↔
      ∃ i, ((vlan, mac), i) ∈ c.vlanAndMac2Intf := by
  simp [clearTrace]

theorem delStation_mem_clearTrace (c : Cache) (dv : VlanId) (vlan : VlanId) :
    DelOp.delStation vlan ∈ clearTrace c dv ↔
      ∃ s, (vlan, s) ∈ c.vlan2Station := by
  simp [clearTrace]

theorem delVlan_mem_clearTrace (c : Cache) (dv : VlanId) (vlan : VlanId) :
    DelOp.delVlan vlan ∈ clearTrace c dv ↔
      (∃ i, (vlan, i) ∈ c.vlan2VlanInfo) ∧ vlan ≠ dv := by
  simp [clearTrace]

theorem pairwise_stage_const (l : List DelOp) (k : Nat)
    (h : ∀ a ∈ l, DelOp.stage a = k) :
    l.Pairwise (fun a b => DelOp.stage a ≤ DelOp.stage b) := by
  induction l with
  | nil => exact List.Pairwise.nil
  | cons hd t ih =>
    refine List.Pairwise.cons ?_ (ih fun a ha => h a (List.mem_cons_of_mem _ ha))
    intro b hb
    rw [h hd (List.mem_cons_self _ _), h b (List.mem_cons_of_mem _ hb)]

theorem pairwise_stage_chain (l1 l2 : List DelOp) (k : Nat)
    (h1 : ∀ a ∈ l1, DelOp.stage a = k)
    (h2 : ∀ b ∈ l2, k ≤ DelOp.stage b)
    (p2 : l2.Pairwise (fun a b => DelOp.stage a ≤ DelOp.stage b)) :
    (l1 ++ l2).Pairwise (fun a b => DelOp.stage a ≤ DelOp.stage b) ∧
      ∀ x ∈ l1 ++ l2, k ≤ DelOp.stage x := by
  constructor
  · rw [List.pairwise_append]
    refine ⟨pairwise_stage_const l1 k h1, p2, ?_⟩
    intro a ha b hb
    rw [h1 a ha]
    exact h2 b hb
  · intro x hx
    rcases List.mem_append.mp hx with hx | hx
    · exact le_of_eq (h1 x hx).symm
    · exact h2 x hx

theorem clearTrace_pairwise_stage (c : Cache) (dv : VlanId) :
    (clearTrace c dv).Pairwise (fun a b => DelOp.stage a ≤ DelOp.stage b) := by
  have f0 : ∀ a ∈ c.vrfPrefix2Route.map (fun p => DelOp.delRoute p.1.1 p.1.2.1 p.1.2.2),
      DelOp.stage a = 0 := by
    intro a ha
    rcases List.mem_map.mp ha with ⟨p, _, hpa⟩
    rw [← hpa]
    rfl
  have f1 : ∀ a ∈ c.vrfAndIP2Route.map (fun p => DelOp.delHostRoute p.1.1 p.1.2),
      DelOp.stage a = 1 := by
    intro a ha
    rcases List.mem_map.mp ha with ⟨p, _, hpa⟩
    rw [← hpa]
    rfl
  have f2 : ∀ a ∈ c.vrfIp2Host.map (fun p => DelOp.delHost p.1.1 p.1.2),
      DelOp.stage a = 2 := by
    intro a ha
    rcases List.mem_map.mp ha with ⟨p, _, hpa⟩
    rw [← hpa]
    rfl
  have f3 : ∀ a ∈ c.egressIds2Ecmp.map (fun p => DelOp.delEcmp p.1),
      DelOp.stage a = 3 := by
    intro a ha
    rcases List.mem_map.mp ha with ⟨p, _, hpa⟩
    rw [← hpa]
    rfl
  have f4 : ∀ a ∈ c.egressId2EgressAndBool.filterMap
      (fun p => if p.2.2 then none else some (DelOp.delEgress p.1)),
      DelOp.stage a = 4 := by
    intro a ha
    rcases List.mem_filterMap.mp ha with ⟨p, _, hpa⟩
    by_cases hp : p.2.2 = true
    · rw [if_pos hp] at hpa
      simp at hpa
    · rw [if_neg hp] at hpa
      rw [← Option.some.inj hpa]
      rfl
  have f5 : ∀ a ∈ c.vlanAndMac2Intf.map (fun p => DelOp.delIntf p.1.1 p.1.2),
      DelOp.stage a = 5 := by
    intro a ha
    rcases List.mem_map.mp ha with ⟨p, _, hpa⟩
    rw [← hpa]
    rfl
  have f6 : ∀ a ∈ c.vlan2Station.map (fun p => DelOp.delStation p.1),
      DelOp.stage a = 6 := by
    intro a ha
    rcases List.mem_map.mp ha with ⟨p, _, hpa⟩
    rw [← hpa]
    rfl
  have f7 : ∀ a ∈ c.vlan2VlanInfo.filterMap
      (fun p => if p.1 = dv then none else some (DelOp.delVlan p.1)),
      DelOp.stage a = 7 := by
    intro a ha
    rcases List.mem_filterMap.mp ha with ⟨p, _, hpa⟩
    by_cases hp : p.1 = dv
    · rw [if_pos hp] at hpa
      simp at hpa
    · rw [if_neg hp] at hpa
      rw [← Option.some.inj hpa]
      rfl
  have st7 := pairwise_stage_const _ 7 f7
  have b7 : ∀ x ∈ c.vlan2VlanInfo.filterMap
      (fun p => if p.1 = dv then none else some (DelOp.delVlan p.1)),
      (7 : Nat) ≤ DelOp.stage x := fun x hx => le_of_eq (f7 x hx).symm
  have st6 := pairwise_stage_chain _ _ 6 f6 (fun b hb => le_trans (by omega) (b7 b hb)) st7
  have st5 := pairwise_stage_chain _ _ 5 f5 (fun b hb => le_trans (by omega) (st6.2 b hb)) st6.1
  have st4 := pairwise_stage_chain _ _ 4 f4 (fun b hb => le_trans (by omega) (st5.2 b hb)) st5.1
  have st3 := pairwise_stage_chain _ _ 3 f3 (fun b hb => le_trans (by omega) (st4.2 b hb)) st4.1
  have st2 := pairwise_stage_chain _ _ 2 f2 (fun b hb => le_trans (by omega) (st3.2 b hb)) st3.1
  have st1 := pairwise_stage_chain _ _ 1 f1 (fun b hb => le_trans (by omega) (st2.2 b hb)) st2.1
  have st0 := pairwise_stage_chain _ _ 0 f0 (fun b hb => le_trans (by omega) (st1.2 b hb)) st1.1
  simpa only [clearTrace, List.append_assoc] using st0.1

theorem mem_pre_of_append_cons {α : Type} (P rest pre post : List α) (a : α)
    (h : pre ++ a :: post = P ++ rest) (ha : a ∉ P) : ∀ x ∈ P, x ∈ pre := by
  rcases List.append_eq_append_iff.mp h with ⟨t, h1, h2⟩ | ⟨t, h1, _⟩
  · cases t with
    | nil =>
      intro x hx
      rw [h1] at hx
      simpa using hx
    | cons y s =>
      exfalso
      rw [List.cons_append] at h2
      injection h2 with h3 _
      apply ha
      rw [h3, h1]
      exact List.mem_append.mpr (Or.inr (List.mem_cons_self _ _))
  · intro x hx
    rw [h1]
    exact List.mem_append.mpr (Or.inl hx)

theorem clearTrace_decomp_egress (c : Cache) (dv : VlanId) :
    clearTrace c dv =
      (c.vrfPrefix2Route.map (fun p => DelOp.delRoute p.1.1 p.1.2.1 p.1.2.2) ++
       (c.vrfAndIP2Route.map (fun p => DelOp.delHostRoute p.1.1 p.1.2) ++
        (c.vrfIp2Host.map (fun p => DelOp.delHost p.1.1 p.1.2) ++
         c.egressIds2Ecmp.map (fun p => DelOp.delEcmp p.1)))) ++
      (c.egressId2EgressAndBool.filterMap
          (fun p => if p.2.2 then none else some (DelOp.delEgress p.1)) ++
       (c.vlanAndMac2Intf.map (fun p => DelOp.delIntf p.1.1 p.1.2) ++
        (c.vlan2Station.map (fun p => DelOp.delStation p.1) ++
         c.vlan2VlanInfo.filterMap
           (fun p => if p.1 = dv then none else some (DelOp.delVlan p.1))))) := by
  simp [clearTrace, List.append_assoc]

theorem clearTrace_decomp_intf (c : Cache) (dv : VlanId) :
    clearTrace c dv =
      (c.vrfPrefix2Route.map (fun p => DelOp.delRoute p.1.1 p.1.2.1 p.1.2.2) ++
       (c.vrfAndIP2Route.map (fun p => DelOp.delHostRoute p.1.1 p.1.2) ++
        (c.vrfIp2Host.map (fun p => DelOp.delHost p.1.1 p.1.2) ++
         (c.egressIds2Ecmp.map (fun p => DelOp.delEcmp p.1) ++
          c.egressId2EgressAndBool.filterMap
            (fun p => if p.2.2 then none else some (DelOp.delEgress p.1)))))) ++
      (c.vlanAndMac2Intf.map (fun p => DelOp.delIntf p.1.1 p.1.2) ++
       (c.vlan2Station.map (fun p => DelOp.delStation p.1) ++
        c.vlan2VlanInfo.filterMap
          (fun p => if p.1 = dv then none else some (DelOp.delVlan p.1)))) := by
  simp [clearTrace, List.append_assoc]

/-- C1 counterexample: the claim that clear issues deletions for exactly
the discovered objects outside the claimed subset fails on the default
VLAN. In this concrete post-reconciliation cache vlan 1 was discovered
and nothing was claimed (the claimed subset is empty), yet with default
VLAN 1 the teardown trace deletes nothing, in particular not vlan 1. -/
theorem clear_skips_default_vlan_counterexample :
    ((1 : VlanId), (⟨[], []⟩ : VlanInfo)) ∈ cexC1Cache.vlan2VlanInfo ∧
    DelOp.delVlan 1 ∉ clearTrace cexC1Cache 1 := by
  constructor
  · decide
  · decide

/-- C1 (amended): the teardown trace of clear deletes exactly the
entries still present in each owning map, deletes an egress object
exactly when its claimed flag is false (a claimed egress is never
destroyed), and deletes a discovered VLAN exactly when it is not the
hardware default VLAN, which is never deleted even when unclaimed. -/
theorem clear_deletes_exactly_unclaimed (c : Cache) (dv : VlanId) :
    (∀ vrf ip mask, DelOp.delRoute vrf ip mask ∈ clearTrace c dv ↔
      ∃ r, ((vrf, ip, mask), r) ∈ c.vrfPrefix2Route) ∧
    (∀ vrf ip, DelOp.delHostRoute vrf ip ∈ clearTrace c dv ↔
      ∃ r, ((vrf, ip), r) ∈ c.vrfAndIP2Route) ∧
    (∀ vrf ip, DelOp.delHost vrf ip ∈ clearTrace c dv ↔
      ∃ h, ((vrf, ip), h) ∈ c.vrfIp2Host) ∧
    (∀ ids, DelOp.delEcmp ids ∈ clearTrace c dv ↔
      ∃ e, (ids, e) ∈ c.egressIds2Ecmp) ∧
    (∀ id, DelOp.delEgress id ∈ clearTrace c dv ↔
      ∃ e, (id, (e, false)) ∈ c.egressId2EgressAndBool) ∧
    (∀ vlan mac, DelOp.delIntf vlan mac ∈ clearTrace c dv ↔
      ∃ i, ((vlan, mac), i) ∈ c.vlanAndMac2Intf) ∧
    (∀ vlan, DelOp.delStation vlan ∈ clearTrace c dv ↔
      ∃ s, (vlan, s) ∈ c.vlan2Station) ∧
    (∀ vlan, DelOp.delVlan vlan ∈ clearTrace c dv ↔
      (∃ i, (vlan, i) ∈ c.vlan2VlanInfo) ∧ vlan ≠ dv) :=
  ⟨fun vrf ip mask => delRoute_mem_clearTrace c dv vrf ip mask,
   fun vrf ip => delHostRoute_mem_clearTrace c dv vrf ip,
   fun vrf ip => delHost_mem_clearTrace c dv vrf ip,
   fun ids => delEcmp_mem_clearTrace c dv ids,
   fun id => delEgress_mem_clearTrace c dv id,
   fun vlan mac => delIntf_mem_clearTrace c dv vlan mac,
   fun vlan => delStation_mem_clearTrace c dv vlan,
   fun vlan => delVlan_mem_clearTrace c dv vlan⟩

/-- C2: teardown deletions are issued in stage order (prefix routes,
host routes, host entries, ECMP groups, unclaimed egress objects,
interfaces, stations, VLANs); in particular every remaining route, host
entry and ECMP group is deleted before any egress object is destroyed,
and every unclaimed egress object is destroyed before any interface is
deleted. -/
theorem clear_deletion_order (c : Cache) (dv : VlanId) :
    (clearTrace c dv).Pairwise (fun a b => DelOp.stage a ≤ DelOp.stage b) ∧
    (∀ pre id post, clearTrace c dv = pre ++ DelOp.delEgress id :: post →
      (∀ vrf ip mask r, ((vrf, ip, mask), r) ∈ c.vrfPrefix2Route →
        DelOp.delRoute vrf ip mask ∈ pre) ∧
      (∀ vrf ip r, ((vrf, ip), r) ∈ c.vrfAndIP2Route → DelOp.delHostRoute vrf ip ∈ pre) ∧
      (∀ vrf ip h, ((vrf, ip), h) ∈ c.vrfIp2Host → DelOp.delHost vrf ip ∈ pre) ∧
      (∀ ids e, (ids, e) ∈ c.egressIds2Ecmp → DelOp.delEcmp ids ∈ pre)) ∧
    (∀ pre vlan mac post, clearTrace c dv = pre ++ DelOp.delIntf vlan mac :: post →
      ∀ id e, (id, (e, false)) ∈ c.egressId2EgressAndBool → DelOp.delEgress id ∈ pre) := by
  refine ⟨clearTrace_pairwise_stage c dv, ?_, ?_⟩
  · intro pre id post hsplit
    have heq := hsplit.symm.trans (clearTrace_decomp_egress c dv)
    have ha : DelOp.delEgress id ∉
        c.vrfPrefix2Route.map (fun p => DelOp.delRoute p.1.1 p.1.2.1 p.1.2.2) ++
        (c.vrfAndIP2Route.map (fun p => DelOp.delHostRoute p.1.1 p.1.2) ++
         (c.vrfIp2Host.map (fun p => DelOp.delHost p.1.1 p.1.2) ++
          c.egressIds2Ecmp.map (fun p => DelOp.delEcmp p.1))) := by
      intro hmem
      simp at hmem
    have hP := mem_pre_of_append_cons _ _ pre post _ heq ha
    refine ⟨?_, ?_, ?_, ?_⟩
    · intro vrf ip mask r hr
      exact hP _ (List.mem_append.mpr (Or.inl (List.mem_map.mpr ⟨_, hr, rfl⟩)))
    · intro vrf ip r hr
      exact hP _ (List.mem_append.mpr (Or.inr (List.mem_append.mpr
        (Or.inl (List.mem_map.mpr ⟨_, hr, rfl⟩)))))
    · intro vrf ip h hr
      exact hP _ (List.mem_append.mpr (Or.inr (List.mem_append.mpr
        (Or.inr (List.mem_append.mpr (Or.inl (List.mem_map.mpr ⟨_, hr, rfl⟩)))))))
    · intro ids e hr
      exact hP _ (List.mem_append.mpr (Or.inr (List.mem_append.mpr
        (Or.inr (List.mem_append.mpr (Or.inr (List.mem_map.mpr ⟨_, hr, rfl⟩)))))))
  · intro pre vlan mac post hsplit
    have heq := hsplit.symm.trans (clearTrace_decomp_intf c dv)
    have ha : DelOp.delIntf vlan mac ∉
        c.vrfPrefix2Route.map (fun p => DelOp.delRoute p.1.1 p.1.2.1 p.1.2.2) ++
        (c.vrfAndIP2Route.map (fun p => DelOp.delHostRoute p.1.1 p.1.2) ++
         (c.vrfIp2Host.map (fun p => DelOp.delHost p.1.1 p.1.2) ++
          (c.egressIds2Ecmp.map (fun p => DelOp.delEcmp p.1) ++
           c.egressId2EgressAndBool.filterMap
             (fun p => if p.2.2 then none else some (DelOp.delEgress p.1))))) := by
      intro hmem
      simp at hmem
    have hP := mem_pre_of_append_cons _ _ pre post _ heq ha
    intro id e hr
    refine hP _ (List.mem_append.mpr (Or.inr (List.mem_append.mpr (Or.inr
      (List.mem_append.mpr (Or.inr (List.mem_append.mpr (Or.inr
        (List.mem_filterMap.mpr ⟨(id, (e, false)), hr, rfl⟩)))))))))

/-- Witness for clear_deletion_order: on a concrete cache with one
object per table, the trace splits before its egress deletion and the
preceding segment contains the ECMP deletion, and splits before its
interface deletion with the egress deletion in the preceding segment. -/
theorem clear_deletion_order_witness :
    clearTrace exC2Cache 0 =
      [DelOp.delRoute 0 ⟨false, 10⟩ ⟨false, 4294967040⟩, DelOp.delHost 0 ⟨false, 10⟩,
       DelOp.delEcmp [10]] ++ DelOp.delEgress 10 ::
      [DelOp.delIntf 3 7] ∧
    DelOp.delEcmp [10] ∈
      [DelOp.delRoute 0 ⟨false, 10⟩ ⟨false, 4294967040⟩, DelOp.delHost 0 ⟨false, 10⟩,
       DelOp.delEcmp [10]] ∧
    DelOp.delEgress 10 ∈
      [DelOp.delRoute 0 ⟨false, 10⟩ ⟨false, 4294967040⟩, DelOp.delHost 0 ⟨false, 10⟩,
       DelOp.delEcmp [10], DelOp.delEgress 10] :=
  ⟨by decide,
   ((clear_deletion_order exC2Cache 0).2.1
      [DelOp.delRoute 0 ⟨false, 10⟩ ⟨false, 4294967040⟩, DelOp.delHost 0 ⟨false, 10⟩,
       DelOp.delEcmp [10]] 10 [DelOp.delIntf 3 7] (by decide)).2.2.2 [10] ⟨5⟩ (by decide),
   (clear_deletion_order exC2Cache 0).2.2
      [DelOp.delRoute 0 ⟨false, 10⟩ ⟨false, 4294967040⟩, DelOp.delHost 0 ⟨false, 10⟩,
       DelOp.delEcmp [10], DelOp.delEgress 10] 3 7 [] (by decide) 10 ⟨3, 1, 2, 4, 0⟩
      (by decide)⟩

/-- Characterization of a fatal-free egress discovery run from an
arbitrary intermediate cache state: the run succeeds exactly when every
unreferenced entry carries a role and each singleton role, counting an
already-assigned register as one occupant, is claimed at most once. -/
theorem processEgress_ok_iff (refs : List EgressId) (es : List (EgressId × BcmEgress)) :
    ∀ c : Cache,
      c.egressOrEcmpIdsFromHostTable = refs →
      (es.map Prod.fst).Nodup →
      (∀ p ∈ es, assocFind c.egressId2EgressAndBool p.1 = none) →
      (isOk (processEgressEntries c es) = true ↔
        ((∀ p ∈ es, p.1 ∉ refs → egressRole p.2 ≠ EgressRole.unflagged) ∧
         unclaimedRoleCount refs es .drop +
           (if c.dropEgressId.isSome then 1 else 0) ≤ 1 ∧
         unclaimedRoleCount refs es .toCPU +
           (if c.toCPUEgressId.isSome then 1 else 0) ≤ 1)) := by
  induction es with
  | nil =>
    intro c _ _ _
    simp [processEgressEntries, isOk, unclaimedRoleCount]
    constructor <;> split <;> omega
  | cons hd t ih =>
    obtain ⟨id, e⟩ := hd
    intro c hrefs hnodup hfresh
    have hfresh0 : assocFind c.egressId2EgressAndBool id = none :=
      hfresh (id, e) (List.mem_cons_self _ _)
    have hnodup2 : (t.map Prod.fst).Nodup := by
      simp only [List.map_cons, List.nodup_cons] at hnodup
      exact hnodup.2
    have hidnot : id ∉ t.map Prod.fst := by
      simp only [List.map_cons, List.nodup_cons] at hnodup
      exact hnodup.1
    by_cases href : id ∈ refs
    · have hstep : processEgressEntries c ((id, e) :: t) =
          processEgressEntries
            { c with egressId2EgressAndBool :=
                assocUpd c.egressId2EgressAndBool id (e, false) } t := by
        simp [processEgressEntries, egressTraversalCallback, hfresh0, hrefs, href]
      have hfresh2 : ∀ p ∈ t,
          assocFind (assocUpd c.egressId2EgressAndBool id (e, false)) p.1 = none := by
        intro p hp
        have hne : p.1 ≠ id := by
          intro hpe
          exact hidnot (by rw [← hpe]; exact List.mem_map.mpr ⟨p, hp, rfl⟩)
        rw [assocFind_assocUpd, if_neg hne]
        exact hfresh p (List.mem_cons_of_mem _ hp)
      rw [hstep,
        ih { c with egressId2EgressAndBool :=
              assocUpd c.egressId2EgressAndBool id (e, false) } hrefs hnodup2 hfresh2]
      simp [unclaimedRoleCount, List.countP_cons, href]
    · by_cases hdrop : e.flags &&& OPENNSL_L3_DST_DISCARD ≠ 0
      · have hrole : egressRole e = .drop := by simp [egressRole, hdrop]
        cases hcd : c.dropEgressId with
        | some x =>
          have hstep : processEgressEntries c ((id, e) :: t) = .error .fatalError := by
            simp [processEgressEntries, egressTraversalCallback, hfresh0, hrefs, href,
              hdrop, hcd]
          rw [hstep]
          have hc : unclaimedRoleCount refs ((id, e) :: t) .drop =
              unclaimedRoleCount refs t .drop + 1 := by
            simp [unclaimedRoleCount, List.countP_cons, href, hrole]
          constructor
          · intro h
            exact absurd h (by decide)
          · intro hR
            have h2 := hR.2.1
            have hite : (if (some x : Option EgressId).isSome = true then 1 else 0) = 1 := rfl
            rw [hc, hite] at h2
            exact absurd h2 (by omega)
        | none =>
          have hstep : processEgressEntries c ((id, e) :: t) =
              processEgressEntries { c with dropEgressId := some id } t := by
            simp [processEgressEntries, egressTraversalCallback, hfresh0, hrefs, href,
              hdrop, hcd]
          rw [hstep,
            ih { c with dropEgressId := some id } hrefs hnodup2
              (fun p hp => hfresh p (List.mem_cons_of_mem _ hp))]
          simp [unclaimedRoleCount, List.countP_cons, href, hrole, hcd]
      · have hdrop0 : e.flags &&& OPENNSL_L3_DST_DISCARD = 0 := by omega
        by_cases hcpu : e.flags &&& (OPENNSL_L3_L2TOCPU ||| OPENNSL_L3_COPY_TO_CPU) ≠ 0
        · have hrole : egressRole e = .toCPU := by simp [egressRole, hdrop0, hcpu]
          cases hct : c.toCPUEgressId with
          | some x =>
            have hstep : processEgressEntries c ((id, e) :: t) = .error .fatalError := by
              simp [processEgressEntries, egressTraversalCallback, hfresh0, hrefs, href,
                hdrop, hcpu, hct]
            rw [hstep]
            have hc : unclaimedRoleCount refs ((id, e) :: t) .toCPU =
                unclaimedRoleCount refs t .toCPU + 1 := by
              simp [unclaimedRoleCount, List.countP_cons, href, hrole]
            constructor
            · intro h
              exact absurd h (by decide)
            · intro hR
              have h3 := hR.2.2
              have hite : (if (some x : Option EgressId).isSome = true then 1 else 0) = 1 := rfl
              rw [hc, hite] at h3
              exact absurd h3 (by omega)
          | none =>
            have hstep : processEgressEntries c ((id, e) :: t) =
                processEgressEntries { c with toCPUEgressId := some id } t := by
              simp [processEgressEntries, egressTraversalCallback, hfresh0, hrefs, href,
                hdrop, hcpu, hct]
            rw [hstep,
              ih { c with toCPUEgressId := some id } hrefs hnodup2
                (fun p hp => hfresh p (List.mem_cons_of_mem _ hp))]
            simp [unclaimedRoleCount, List.countP_cons, href, hrole, hct]
        · have hcpu0 : e.flags &&& (OPENNSL_L3_L2TOCPU ||| OPENNSL_L3_COPY_TO_CPU) = 0 := by
            omega
          have hrole : egressRole e = .unflagged := by simp [egressRole, hdrop0, hcpu0]
          have hstep : processEgressEntries c ((id, e) :: t) = .error .fatalError := by
            simp [processEgressEntries, egressTraversalCallback, hfresh0, hrefs, href,
              hdrop, hcpu]
          rw [hstep]
          constructor
          · intro h
            exact absurd h (by decide)
          · intro hR
            exact absurd hrole (hR.1 (id, e) (List.mem_cons_self _ _) href)

/-- C7 counterexample: the claimed invariant (among unreferenced egress
objects at most one carries the drop flag and at most one carries a
to-CPU flag) holds for a discovery sequence containing one unreferenced
egress with neither flag, yet the traversal takes a fatal branch, so the
fatal branches are not unreachable under that invariant alone. -/
theorem egress_unflagged_fatal_counterexample :
    [((7 : EgressId), exPlainEgress)].countP
        (fun p => decide (p.1 ∉ ([] : List EgressId)) &&
          decide (p.2.flags &&& OPENNSL_L3_DST_DISCARD ≠ 0)) ≤ 1 ∧
    [((7 : EgressId), exPlainEgress)].countP
        (fun p => decide (p.1 ∉ ([] : List EgressId)) &&
          decide (p.2.flags &&& (OPENNSL_L3_L2TOCPU ||| OPENNSL_L3_COPY_TO_CPU) ≠ 0)) ≤ 1 ∧
    processEgressEntries (egressDiscoveryStart []) [(7, exPlainEgress)] =
      .error .fatalError :=
  ⟨by decide, by decide, rfl⟩

/-- C7 (amended): for a duplicate-free egress discovery sequence run
from the populate-time start state, the traversal avoids every
fatal-error branch exactly when the discovery invariant holds: every
egress not referenced from the host table carries a role flag under the
code precedence (drop wins over to-CPU), at most one unreferenced entry
has the drop role, and at most one has the to-CPU role; whenever the
invariant is violated a fatal branch is taken. -/
theorem egress_fatal_iff_role_invariant (refs : List EgressId)
    (es : List (EgressId × BcmEgress)) (hnodup : (es.map Prod.fst).Nodup) :
    isOk (processEgressEntries (egressDiscoveryStart refs) es) = true ↔
      egressDiscoveryOk refs es := by
  have h := processEgress_ok_iff refs es (egressDiscoveryStart refs) rfl hnodup
    (fun p _ => rfl)
  simpa [egressDiscoveryOk, egressDiscoveryStart, emptyCache] using h

/-- Witness for egress_fatal_iff_role_invariant: a concrete sequence
with one drop egress, one to-CPU egress and one host-referenced plain
egress satisfies the invariant and indeed completes with no fatal. -/
theorem egress_fatal_iff_role_invariant_witness :
    (([((1 : EgressId), exDropEgress), (2, exCpuEgress), (3, exPlainEgress)].map
        Prod.fst).Nodup) ∧
    isOk (processEgressEntries (egressDiscoveryStart [3])
      [(1, exDropEgress), (2, exCpuEgress), (3, exPlainEgress)]) = true :=
  ⟨by decide,
   (egress_fatal_iff_role_invariant [3]
      [(1, exDropEgress), (2, exCpuEgress), (3, exPlainEgress)] (by decide)).mpr
     (by refine ⟨?_, ?_, ?_⟩ <;> decide)⟩

theorem getD_tables_prop (dumpedVlans : List (VlanId × DumpedVlan))
    (acc : List (VlanId × AddrTables)) (vlan : VlanId)
    (hp : neighborsFromDump dumpedVlans acc) :
    (∀ e ∈ ((assocFind acc vlan).getD {} : AddrTables).arp,
      ∃ d, assocFind dumpedVlans vlan = some d ∧ e.ip ∈ d.arpIps) ∧
    (∀ e ∈ ((assocFind acc vlan).getD {} : AddrTables).ndp,
      ∃ d, assocFind dumpedVlans vlan = some d ∧ e.ip ∈ d.ndpIps) := by
  cases hft : assocFind acc vlan with
  | none =>
    constructor <;> intro e he <;> simp [AddrTables.arp, AddrTables.ndp] at he
  | some t0 =>
    simpa using hp vlan t0 (mem_of_assocFind_eq_some _ _ _ hft)

theorem reconNeighborStep_preserves (c : Cache) (dumpedVlans : List (VlanId × DumpedVlan))
    (acc : List (VlanId × AddrTables)) (entry : (Vrf × IPAddr) × BcmHost)
    (acc1 : List (VlanId × AddrTables))
    (hstep : reconNeighborStep c dumpedVlans acc entry = .ok acc1)
    (hp : neighborsFromDump dumpedVlans acc) : neighborsFromDump dumpedVlans acc1 := by
  unfold reconNeighborStep at hstep
  split at hstep
  · rw [← Except.ok.inj hstep]
    exact hp
  next bcmEgress b _ =>
    split at hstep
    · rw [← Except.ok.inj hstep]
      exact hp
    · split at hstep
      · exact absurd hstep (by simp)
      next dumpedVlan hfound =>
        split at hstep
        · rw [← Except.ok.inj hstep]
          exact hp
        next hskip1 =>
          split at hstep
          · rw [← Except.ok.inj hstep]
            exact hp
          next hskip2 =>
            rw [← Except.ok.inj hstep]
            intro v tv hmem
            rcases mem_assocUpd _ _ _ _ hmem with heq | hmemacc
            · have hv : v = bcmEgress.vlan := congrArg Prod.fst heq
              have htv : tv =
                  (if entry.1.2.isV6 then
                    { ((assocFind acc bcmEgress.vlan).getD {} : AddrTables) with
                      ndp := ((assocFind acc bcmEgress.vlan).getD {} : AddrTables).ndp ++
                        [⟨entry.1.2.addr, programmedToDrop bcmEgress⟩] }
                  else
                    { ((assocFind acc bcmEgress.vlan).getD {} : AddrTables) with
                      arp := ((assocFind acc bcmEgress.vlan).getD {} : AddrTables).arp ++
                        [⟨entry.1.2.addr, programmedToDrop bcmEgress⟩] }) :=
                congrArg Prod.snd heq
              subst hv
              have hbase := getD_tables_prop dumpedVlans acc bcmEgress.vlan hp
              cases hv6 : entry.1.2.isV6 with
              | false =>
                rw [hv6] at htv
                simp only [Bool.false_eq_true, if_neg] at htv
                subst htv
                constructor
                · intro e he
                  rcases List.mem_append.mp he with he | he
                  · exact hbase.1 e he
                  · have hee : e = ⟨entry.1.2.addr, programmedToDrop bcmEgress⟩ := by
                      simpa using he
                    subst hee
                    refine ⟨dumpedVlan, hfound, ?_⟩
                    by_contra hnotin
                    exact hskip1 ⟨hv6, hnotin⟩
                · intro e he
                  exact hbase.2 e he
              | true =>
                rw [hv6] at htv
                simp only [if_pos] at htv
                subst htv
                constructor
                · intro e he
                  exact hbase.1 e he
                · intro e he
                  rcases List.mem_append.mp he with he | he
                  · exact hbase.2 e he
                  · have hee : e = ⟨entry.1.2.addr, programmedToDrop bcmEgress⟩ := by
                      simpa using he
                    subst hee
                    refine ⟨dumpedVlan, hfound, ?_⟩
                    by_contra hnotin
                    exact hskip2 ⟨hv6, hnotin⟩
            · exact hp v tv hmemacc

theorem reconNeighborLoop_preserves (c : Cache) (dumpedVlans : List (VlanId × DumpedVlan))
    (hosts : List ((Vrf × IPAddr) × BcmHost)) :
    ∀ acc tbls, neighborsFromDump dumpedVlans acc →
      reconNeighborLoop c dumpedVlans hosts acc = .ok tbls →
      neighborsFromDump dumpedVlans tbls := by
  induction hosts with
  | nil =>
    intro acc tbls hp h
    simp only [reconNeighborLoop] at h
    rw [← Except.ok.inj h]
    exact hp
  | cons e t ih =>
    intro acc tbls hp h
    simp only [reconNeighborLoop] at h
    split at h
    next acc1 hstep =>
      exact ih acc1 tbls (reconNeighborStep_preserves c dumpedVlans acc e acc1 hstep hp) h
    next err hstep =>
      exact absurd h (by simp)

/-- C8: any neighbor entry placed in a reconstructed VLAN ARP or NDP
table by the neighbor-table loop of reconstructVlanMap is backed by an
entry for the same address in the dumped snapshot table of that VLAN; a
host entry with no such persisted neighbor entry is dropped. -/
theorem neighbor_promotion_requires_persisted_entry (c : Cache)
    (dumpedVlans : List (VlanId × DumpedVlan)) (tbls : List (VlanId × AddrTables))
    (v : VlanId) (t : AddrTables) (e : NeighborEntry)
    (hok : reconstructNeighborTables c dumpedVlans = .ok tbls) (hmem : (v, t) ∈ tbls) :
    (e ∈ t.arp → ∃ d, assocFind dumpedVlans v = some d ∧ e.ip ∈ d.arpIps) ∧
    (e ∈ t.ndp → ∃ d, assocFind dumpedVlans v = some d ∧ e.ip ∈ d.ndpIps) := by
  have hprop := reconNeighborLoop_preserves c dumpedVlans c.vrfIp2Host [] tbls
    (by intro v0 t0 h0; simp at h0) hok
  exact ⟨fun he => (hprop v t hmem).1 e he, fun he => (hprop v t hmem).2 e he⟩

/-- Witness for neighbor_promotion_requires_persisted_entry: a concrete
host entry for address 5 resolving to vlan 2 is reconstructed with a
non-pending ARP entry, and the snapshot ARP table of vlan 2 does list
address 5. -/
theorem neighbor_promotion_requires_persisted_entry_witness :
    reconstructNeighborTables exC8Cache exC8DumpedVlans =
      .ok [(2, ⟨[⟨5, false⟩], []⟩)] ∧
    (∃ d, assocFind exC8DumpedVlans 2 = some d ∧ (5 : Nat) ∈ d.arpIps) :=
  ⟨rfl,
   (neighbor_promotion_requires_persisted_entry exC8Cache exC8DumpedVlans
      [(2, ⟨[⟨5, false⟩], []⟩)] 2 ⟨[⟨5, false⟩], []⟩ ⟨5, false⟩ rfl
      (by decide)).1 (by decide)⟩

theorem pathsOf_assocUpd (m : List (EgressId × List EgressId)) (id k : EgressId)
    (s : List EgressId) :
    pathsOf (assocUpd m id s) k = if k = id then s else pathsOf m k := by
  unfold pathsOf
  rw [assocFind_assocUpd]
  by_cases hk : k = id <;> simp [hk]

theorem pathsOf_insertPaths (paths : List Nat) :
    ∀ (m : List (EgressId × List EgressId)) (id : Nat) (k x : Nat),
      (x ∈ pathsOf (insertPaths m id paths) k ↔
        x ∈ pathsOf m k ∨ (k = id ∧ x ∈ paths)) := by
  induction paths with
  | nil =>
    intro m id k x
    simp [insertPaths]
  | cons p ps ih =>
    intro m id k x
    have hstep : insertPaths m id (p :: ps) =
        insertPaths (assocUpd m id (setInsert (pathsOf m id) p)) id ps := rfl
    rw [hstep, ih]
    rw [pathsOf_assocUpd]
    by_cases hk : k = id
    · subst hk
      simp [mem_setInsert, List.mem_cons]
      tauto
    · simp only [if_neg hk, hk]
      tauto

theorem loadEcmpObjEntries_ok (es : List EcmpSerEntry) :
    ∀ m, (∀ e ∈ es, e.egressId ≠ BcmEgressBase_INVALID) →
      ∃ m2, loadEcmpObjEntries es m = .ok m2 := by
  induction es with
  | nil =>
    intro m _
    exact ⟨m, rfl⟩
  | cons e t ih =>
    intro m h
    simp only [loadEcmpObjEntries]
    rw [if_neg (h e (List.mem_cons_self _ _))]
    exact ih _ (fun p hp => h p (List.mem_cons_of_mem _ hp))

theorem pathsOf_loadEcmpObjEntries (es : List EcmpSerEntry) :
    ∀ m m2, loadEcmpObjEntries es m = .ok m2 →
      ∀ k x, (x ∈ pathsOf m2 k ↔
        x ∈ pathsOf m k ∨ ∃ e ∈ es, e.egressId = k ∧ x ∈ e.paths) := by
  induction es with
  | nil =>
    intro m m2 h k x
    simp only [loadEcmpObjEntries] at h
    rw [← Except.ok.inj h]
    simp
  | cons e t ih =>
    intro m m2 h k x
    simp only [loadEcmpObjEntries] at h
    split at h
    · exact absurd h (by simp)
    · rw [ih _ _ h k x, pathsOf_insertPaths]
      simp only [List.mem_cons]
      constructor
      · rintro ((hin | ⟨hk, hx⟩) | ⟨e1, he1, hk1, hx1⟩)
        · exact Or.inl hin
        · exact Or.inr ⟨e, Or.inl rfl, hk.symm, hx⟩
        · exact Or.inr ⟨e1, Or.inr he1, hk1, hx1⟩
      · rintro (hin | ⟨e1, (he1 | he1), hk1, hx1⟩)
        · exact Or.inl (Or.inl hin)
        · subst he1
          exact Or.inl (Or.inr ⟨hk1.symm, hx1⟩)
        · exact Or.inr ⟨e1, he1, hk1, hx1⟩

/-- C9: serializing the discovered ECMP path map and loading the
serialized records back on the next warm-boot cycle (a fresh cache with
an empty path map and an empty hostTable section) succeeds, sets the
populated flag, and reproduces exactly the same path set for every group
id, provided the map has one entry per group id and no sentinel id. -/
theorem ecmp_serialization_roundtrip (c cNext : Cache)
    (hnd : (c.hwSwitchEcmp2EgressIds.map Prod.fst).Nodup)
    (hval : ∀ p ∈ c.hwSwitchEcmp2EgressIds, p.1 ≠ BcmEgressBase_INVALID)
    (hempty : cNext.hwSwitchEcmp2EgressIds = []) :
    ∃ c2, populateEcmpFromFile true [] (toFollyDynamicEcmp c) cNext = .ok c2 ∧
      c2.hwSwitchEcmp2EgressIdsPopulated = true ∧
      ∀ k x, (x ∈ pathsOf c2.hwSwitchEcmp2EgressIds k ↔
        x ∈ pathsOf c.hwSwitchEcmp2EgressIds k) := by
  have hids : ∀ e ∈ toFollyDynamicEcmp c, e.egressId ≠ BcmEgressBase_INVALID := by
    intro e he
    rcases List.mem_map.mp he with ⟨p, hp, hpe⟩
    rw [← hpe]
    exact hval p hp
  obtain ⟨m2, hm2⟩ := loadEcmpObjEntries_ok (toFollyDynamicEcmp c) [] hids
  refine ⟨{ cNext with
      hwSwitchEcmp2EgressIdsPopulated := true,
      hwSwitchEcmp2EgressIds := m2 }, ?_, rfl, ?_⟩
  · simp [populateEcmpFromFile, hempty, hm2]
  · intro k x
    rw [show ({ cNext with
        hwSwitchEcmp2EgressIdsPopulated := true,
        hwSwitchEcmp2EgressIds := m2 } : Cache).hwSwitchEcmp2EgressIds = m2 from rfl]
    rw [pathsOf_loadEcmpObjEntries (toFollyDynamicEcmp c) [] m2 hm2 k x]
    have hleft : pathsOf ([] : List (EgressId × List EgressId)) k = [] := rfl
    rw [hleft]
    simp only [List.not_mem_nil, false_or]
    constructor
    · rintro ⟨e, he, hk, hx⟩
      rcases List.mem_map.mp he with ⟨p, hp, hpe⟩
      have hfind : assocFind c.hwSwitchEcmp2EgressIds k = some p.2 := by
        refine assocFind_eq_some_of_mem _ _ _ hnd ?_
        have hp1 : p.1 = k := by rw [← hk, ← hpe]
        rw [← hp1]
        exact hp
      unfold pathsOf
      rw [hfind]
      have hx2 : x ∈ p.2 := by
        have : e.paths = p.2 := by rw [← hpe]
        rw [← this]
        exact hx
      simpa using hx2
    · intro hx
      unfold pathsOf at hx
      cases hfind : assocFind c.hwSwitchEcmp2EgressIds k with
      | none =>
        rw [hfind] at hx
        simp at hx
      | some s =>
        rw [hfind] at hx
        simp at hx
        refine ⟨⟨k, s⟩, ?_, rfl, hx⟩
        exact List.mem_map.mpr ⟨(k, s), mem_of_assocFind_eq_some _ _ _ hfind, rfl⟩

/-- Witness for ecmp_serialization_roundtrip: a concrete two-group map
round-trips through serialization and reload. -/
theorem ecmp_serialization_roundtrip_witness :
    (exC9Cache.hwSwitchEcmp2EgressIds.map Prod.fst).Nodup ∧
    (∃ c2, populateEcmpFromFile true [] (toFollyDynamicEcmp exC9Cache) emptyCache = .ok c2 ∧
      c2.hwSwitchEcmp2EgressIdsPopulated = true ∧
      ∀ k x, (x ∈ pathsOf c2.hwSwitchEcmp2EgressIds k ↔
        x ∈ pathsOf exC9Cache.hwSwitchEcmp2EgressIds k)) :=
  ⟨by decide,
   ecmp_serialization_roundtrip exC9Cache emptyCache (by decide) (by decide) rfl⟩

theorem reconstructInterfaceMap_ok_of_all (intfs : List ((VlanId × Mac) × BcmIntf))
    (dumped : List (Nat × DumpedInterface)) :
    (∀ p ∈ intfs, (assocFind dumped p.2.l3a_vid).isSome = true) →
      isOk (reconstructInterfaceMap intfs dumped) = true := by
  induction intfs with
  | nil =>
    intro _
    rfl
  | cons hd t ih =>
    intro h
    obtain ⟨⟨vlan, mac⟩, bi⟩ := hd
    have hhd := h _ (List.mem_cons_self _ _)
    cases hf : assocFind dumped bi.l3a_vid with
    | none =>
      rw [hf] at hhd
      simp at hhd
    | some d =>
      have hrest := ih (fun p hp => h p (List.mem_cons_of_mem _ hp))
      cases hrec : reconstructInterfaceMap t dumped with
      | ok rest =>
        simp [reconstructInterfaceMap, hf, hrec, isOk, Except.map]
      | error err =>
        rw [hrec] at hrest
        simp [isOk] at hrest

theorem reconstructInterfaceMap_err_of_missing (intfs : List ((VlanId × Mac) × BcmIntf))
    (dumped : List (Nat × DumpedInterface)) :
    (∃ p ∈ intfs, assocFind dumped p.2.l3a_vid = none) →
      reconstructInterfaceMap intfs dumped = .error .nullDeref := by
  induction intfs with
  | nil =>
    rintro ⟨p, hp, _⟩
    simp at hp
  | cons hd t ih =>
    rintro ⟨p, hp, hnone⟩
    obtain ⟨⟨vlan, mac⟩, bi⟩ := hd
    cases hf : assocFind dumped bi.l3a_vid with
    | none =>
      simp [reconstructInterfaceMap, hf]
    | some d =>
      rcases List.mem_cons.mp hp with hp1 | hp1
      · rw [hp1] at hnone
        rw [hnone] at hf
        cases hf
      · have hrec := ih ⟨p, hp1, hnone⟩
        simp [reconstructInterfaceMap, hf, hrec, Except.map]

/-- C10: reconstructInterfaceMap succeeds exactly when every discovered
hardware interface finds a snapshot interface under its VLAN id; a
discovered interface whose VLAN id is absent from the snapshot map makes
the run dereference the null getInterfaceIf result instead of returning
an error value or skipping the entry. -/
theorem reconstructInterfaceMap_requires_snapshot_vlan
    (intfs : List ((VlanId × Mac) × BcmIntf)) (dumped : List (Nat × DumpedInterface)) :
    (isOk (reconstructInterfaceMap intfs dumped) = true ↔
      ∀ p ∈ intfs, (assocFind dumped p.2.l3a_vid).isSome = true) ∧
    ((∃ p ∈ intfs, assocFind dumped p.2.l3a_vid = none) →
      reconstructInterfaceMap intfs dumped = .error .nullDeref) := by
  refine ⟨⟨?_, reconstructInterfaceMap_ok_of_all intfs dumped⟩,
    reconstructInterfaceMap_err_of_missing intfs dumped⟩
  intro hok
  by_contra hnot
  push_neg at hnot
  obtain ⟨p, hp, hps⟩ := hnot
  have hnone : assocFind dumped p.2.l3a_vid = none := by
    cases hf : assocFind dumped p.2.l3a_vid with
    | none => rfl
    | some d =>
      rw [hf] at hps
      simp at hps
  have herr := reconstructInterfaceMap_err_of_missing intfs dumped ⟨p, hp, hnone⟩
  rw [herr] at hok
  simp [isOk] at hok

/-- Witness for reconstructInterfaceMap_requires_snapshot_vlan: with the
snapshot interface present for vlan 3 reconstruction succeeds, and with
an empty snapshot the same discovery list hits the null dereference. -/
theorem reconstructInterfaceMap_requires_snapshot_vlan_witness :
    isOk (reconstructInterfaceMap exC10Intfs exC10Dumped) = true ∧
    reconstructInterfaceMap exC10Intfs [] = .error .nullDeref :=
  ⟨(reconstructInterfaceMap_requires_snapshot_vlan exC10Intfs exC10Dumped).1.mpr
     (by decide),
   (reconstructInterfaceMap_requires_snapshot_vlan exC10Intfs []).2
     ⟨((3, 7), ⟨3, 0, 7, 1500⟩), by decide, rfl⟩⟩

end FbossWB
